import Mathlib

/-!
Shallow embedding of `adaptable_symplectic_recurrent_neural_network.py`.

Scalars are modelled as rationals (exact arithmetic in place of floating
point); a tensor row of shape `(dim,)` is a `List ℚ`.  The learned sequential
networks (`input_model` followed by `energy_layer`) are modelled as abstract
scalar fields `Vec → ℚ` together with the gradient field `Vec → Vec` that
`torch.autograd.grad` computes for them, taken with respect to the full
concatenated input; the gradient with respect to one input slice is the
corresponding block of that vector.  The `training` flag only controls
`create_graph` (autodiff bookkeeping) in the source; both branches compute
the same values, and the embedding keeps the flag and the branch structure
where the source has them.  The batch axis is elided: every torch operation
involved acts row-wise.
-/

abbrev Vec := List ℚ

/-- Elementwise sum of two tensors of equal shape (`a + b` on torch tensors). -/
def addVec (a b : Vec) : Vec := List.zipWith (fun x y => x + y) a b

/-- Scalar times tensor (`c * v` on torch tensors). -/
def scaleVec (c : ℚ) (v : Vec) : Vec := v.map (fun x => c * x)

/-- Elementwise negation (`-v` on torch tensors). -/
def negVec (v : Vec) : Vec := v.map (fun x => -x)

/-- Embedding of class `adaptable_HNN` (source lines 26-52).  `net` is the
scalar field computed by `energy_layer ∘ input_model` on the concatenated
input `cat (q, p, params)`; `netGrad` is its autograd gradient with respect
to that concatenated input.  The layer-count and width configuration only
shape the learned field and are absorbed into `net`. -/
structure adaptable_HNN where
  input_size : ℕ
  n_params : ℕ
  net : Vec → ℚ
  netGrad : Vec → Vec

/-- `adaptable_HNN.forward` (source lines 43-52): concatenate `(q, p, params)`,
evaluate `H`, and return `(H, -dH_dq, dH_dp)` where the two gradients are the
`q`-block and the `p`-block of the gradient of `net` at the concatenated
input (`torch.autograd.grad(H.sum(), (q, p))`).  The `training` flag only
selects `create_graph=True` in the source and does not change the values. -/
def adaptable_HNN.forward (h : adaptable_HNN) (q p params : Vec) (training : Bool) :
    ℚ × Vec × Vec :=
  let input := q ++ p ++ params
  let H := h.net input
  let g := h.netGrad input
  let dH_dq := g.take q.length
  let dH_dp := (g.drop q.length).take p.length
  (H, negVec dH_dq, dH_dp)

/-- Embedding of class `adaptable_partial_HNN` (source lines 58-104).  In
potential mode the underlying sequential net reads `cat (q, params)`; in
kinetic mode it reads `p` alone.  `net` / `netGrad` are the learned scalar
field and its autograd gradient with respect to the net's full input. -/
structure adaptable_partial_HNN where
  input_size : ℕ
  n_params : ℕ
  potential : Bool
  net : Vec → ℚ
  netGrad : Vec → Vec

/-- `adaptable_partial_HNN.forward` (source lines 84-104).  Potential branch:
`V = net (cat (qp, params))`, returns `(V, -dV_dqp)` where `dV_dqp` is the
`qp`-block of the gradient.  Kinetic branch: `K = net qp`, returns
`(K, dK_dqp)`; the `params` argument is never read there (`call_K` passes
`None`, hence the `Option`).  If `params` were `None` in potential mode the
source would raise at `torch.cat`; that path is never exercised by any
caller and the embedding reads it as an empty parameter row.  `training`
only selects `create_graph=True` and does not change the values. -/
def adaptable_partial_HNN.forward (nn : adaptable_partial_HNN) (qp : Vec) (params : Option Vec)
    (training : Bool) : ℚ × Vec :=
  if nn.potential then
    let input := qp ++ params.getD []
    let V := nn.net input
    let dH_dq := (nn.netGrad input).take qp.length
    (V, negVec dH_dq)
  else
    let K := nn.net qp
    let dH_dp := nn.netGrad qp
    (K, dH_dp)

/-- Embedding of class `adaptable_sympRNN` (source lines 108-187).  The
constructor (lines 110-124) builds either the pair `K_net` / `V_net` of
partial HNNs (separable case) or one full `HNN`; the structure carries the
abstract scalar fields and gradients of all three underlying sequential
nets, and the derived nets below fix the `potential` flags exactly as
`__init__` does. -/
structure adaptable_sympRNN where
  input_size : ℕ
  num_hidden : ℕ
  num_neurons : List ℕ
  n_params : ℕ
  dt : ℚ
  separable : Bool
  Knet : Vec → ℚ
  Knet_grad : Vec → Vec
  Vnet : Vec → ℚ
  Vnet_grad : Vec → Vec
  HNNnet : Vec → ℚ
  HNNnet_grad : Vec → Vec

/-- `self.K_net` as built in `__init__` (source line 121): kinetic mode,
`potential=False`, input size `int(input_size/2)`. -/
def adaptable_sympRNN.K_net (m : adaptable_sympRNN) : adaptable_partial_HNN :=
  { input_size := m.input_size / 2, n_params := m.n_params, potential := false,
    net := m.Knet, netGrad := m.Knet_grad }

/-- `self.V_net` as built in `__init__` (source line 122): potential mode,
`potential=True`, input size `int(input_size/2)`. -/
def adaptable_sympRNN.V_net (m : adaptable_sympRNN) : adaptable_partial_HNN :=
  { input_size := m.input_size / 2, n_params := m.n_params, potential := true,
    net := m.Vnet, netGrad := m.Vnet_grad }

/-- `self.HNN` as built in `__init__` (source line 124). -/
def adaptable_sympRNN.HNN (m : adaptable_sympRNN) : adaptable_HNN :=
  { input_size := m.input_size, n_params := m.n_params,
    net := m.HNNnet, netGrad := m.HNNnet_grad }

/-- `adaptable_sympRNN.step` (source lines 140-159), the separable leapfrog
cell.  Both branches perform the same four estimator evaluations; note the
source's reuse of the names `K` and `V`: the returned energy is built from
the third evaluation (`K_net` at `p_next`) and the fourth (`V_net` at
`q_next`), the first two values of `K` and `V` being shadowed. -/
def adaptable_sympRNN.step (m : adaptable_sympRNN) (q p params : Vec) (training : Bool) :
    ℚ × Vec × Vec :=
  if training then
    let r1 := m.K_net.forward p (some params) true
    let q_half := addVec q (scaleVec (m.dt / 2) r1.2)
    let r2 := m.V_net.forward q_half (some params) true
    let p_next := addVec p (scaleVec m.dt r2.2)
    let r3 := m.K_net.forward p_next (some params) true
    let q_next := addVec q_half (scaleVec (m.dt / 2) r3.2)
    let r4 := m.V_net.forward q_next (some params) true
    (r3.1 + r4.1, q_next, p_next)
  else
    let r1 := m.K_net.forward p (some params) false
    let q_half := addVec q (scaleVec (m.dt / 2) r1.2)
    let r2 := m.V_net.forward q_half (some params) false
    let p_next := addVec p (scaleVec m.dt r2.2)
    let r3 := m.K_net.forward p_next (some params) false
    let q_next := addVec q_half (scaleVec (m.dt / 2) r3.2)
    let r4 := m.V_net.forward q_next (some params) false
    (r3.1 + r4.1, q_next, p_next)

/-- `adaptable_sympRNN.step2` (source lines 161-177), the non-separable
leapfrog cell.  The full estimator is invoked three times; the energy
returned is `H` from the first invocation, at the incoming `(q, p)`.  The
position update uses `qdot_t` from the third invocation (the second
invocation's `qdot_t` is shadowed). -/
def adaptable_sympRNN.step2 (m : adaptable_sympRNN) (q p params : Vec) (training : Bool) :
    ℚ × Vec × Vec :=
  if training then
    let r1 := m.HNN.forward q p params true
    let q_half := addVec q (scaleVec (m.dt / 2) r1.2.2)
    let r2 := m.HNN.forward q_half p params true
    let p_next := addVec p (scaleVec m.dt r2.2.1)
    let r3 := m.HNN.forward q_half p_next params true
    let q_next := addVec q_half (scaleVec (m.dt / 2) r3.2.2)
    (r1.1, q_next, p_next)
  else
    let r1 := m.HNN.forward q p params false
    let q_half := addVec q (scaleVec (m.dt / 2) r1.2.2)
    let r2 := m.HNN.forward q_half p params false
    let p_next := addVec p (scaleVec m.dt r2.2.1)
    let r3 := m.HNN.forward q_half p_next params false
    let q_next := addVec q_half (scaleVec (m.dt / 2) r3.2.2)
    (r1.1, q_next, p_next)

/-- The per-iteration dispatch of `adaptable_sympRNN.forward` (source lines
132-135): `step` when `self.separable`, else `step2`. -/
def stepOf (m : adaptable_sympRNN) (q p params : Vec) (training : Bool) : ℚ × Vec × Vec :=
  if m.separable then m.step q p params training else m.step2 q p params training

/-- `adaptable_sympRNN.forward` (source lines 126-138).  The source fills
buffers `q`, `p` of length `final+1` (with slot `0` holding the initial
condition) and `H` of length `final`, then returns `H, q[1:], p[1:]`; the
embedding produces those returned lists directly, so the time axis of each
returned trajectory is `[state after 1 step, …, state after final steps]`. -/
def adaptable_sympRNN.forward (m : adaptable_sympRNN) (q_initial p_initial params : Vec)
    (final : ℕ) (training : Bool) : List ℚ × List Vec × List Vec :=
  match final with
  | 0 => ([], [], [])
  | n + 1 =>
    let s := stepOf m q_initial p_initial params training
    let rest := m.forward s.2.1 s.2.2 params n training
    (s.1 :: rest.1, s.2.1 :: rest.2.1, s.2.2 :: rest.2.2)

/-- `adaptable_sympRNN.call_V` (source lines 180-181). -/
def adaptable_sympRNN.call_V (m : adaptable_sympRNN) (q params : Vec) : ℚ × Vec :=
  m.V_net.forward q (some params) false

/-- `adaptable_sympRNN.call_K` (source lines 183-184): note `params=None`. -/
def adaptable_sympRNN.call_K (m : adaptable_sympRNN) (p : Vec) : ℚ × Vec :=
  m.K_net.forward p none false

/-- The five training (or validation) arrays given to `train_validate`
(source lines 190-192): inputs and parameters are indexed `(sample, dim)`,
outputs are time-major `(time, sample, dim)`. -/
structure TrainData where
  q_input : List Vec
  p_input : List Vec
  params : List Vec
  q_output : List (List Vec)
  p_output : List (List Vec)

/-- One sliced batch of the data, as fed to the model inside the loops. -/
structure Batch where
  q_in : List Vec
  p_in : List Vec
  params : List Vec
  q_out : List (List Vec)
  p_out : List (List Vec)

/-- The slice `x[b : b+k]` along the leading axis (Python slicing clamps at
the end of the list, as `take` does). -/
def batchWindow (l : List α) (b k : ℕ) : List α := (l.drop b).take k

/-- The batch sliced at loop counter `b` (source lines 213-218 for training,
237-242 for validation — both use the same slices): inputs and parameters
are sliced as `x[b : b+batch_size]`, outputs as `y[:, b : b+batch_size]`. -/
def sliceBatch (d : TrainData) (b batch_size : ℕ) : Batch :=
  { q_in := batchWindow d.q_input b batch_size,
    p_in := batchWindow d.p_input b batch_size,
    params := batchWindow d.params b batch_size,
    q_out := d.q_output.map (fun row => batchWindow row b batch_size),
    p_out := d.p_output.map (fun row => batchWindow row b batch_size) }

/-!
`train_validate` (source lines 190-255) is generic in the model it trains:
any module with the call signature of `adaptable_sympRNN` and any torch
optimizer state.  The embedding abstracts the weights (together with the
optimizer's moment state) as a type `M`, the composite
`criterion(cat(model(batch), dim=2), cat(targets, dim=2)).item()` as
`run : M → Batch → ℕ → ℚ` (the `ℕ` being the prediction horizon `time`),
and the effect of `loss.backward(); optimizer.step()` on the weights as
`optStep : M → Batch → ℕ → M`.  Python raising `ZeroDivisionError` (at
`int(shape/batch_size)` when `batch_size = 0`, and at the `/=` averaging
lines 230 and 252 when the batch count is `0`) is modelled with `Except`.
-/

/-- Body of the training loop (source lines 211-228): slice the batch, run
the model and record `train_loss.item()` with the current weights, then
backpropagate and apply one optimizer step. -/
def trainBody (run : M → Batch → ℕ → ℚ) (optStep : M → Batch → ℕ → M) (train : TrainData)
    (batch_size time : ℕ) (st : M × ℚ) (b : ℕ) : M × ℚ :=
  let batch := sliceBatch train b batch_size
  let loss := run st.1 batch time
  (optStep st.1 batch time, st.2 + loss)

/-- Body of the validation loop (source lines 236-250): slice the batch, run
the model and record `valid_loss.item()`; no backward pass and no optimizer
step occur (`optimizer.zero_grad()` clears gradient buffers only). -/
def validBody (run : M → Batch → ℕ → ℚ) (valid : TrainData)
    (batch_size time : ℕ) (st : M × ℚ) (b : ℕ) : M × ℚ :=
  let batch := sliceBatch valid b batch_size
  let loss := run st.1 batch time
  (st.1, st.2 + loss)

/-- The training loop of one epoch: fold `trainBody` over `b` in
`range num_train`, starting from the entering weights and
`train_batch_loss = 0` (source lines 209-228). -/
def runTrainLoop (run : M → Batch → ℕ → ℚ) (optStep : M → Batch → ℕ → M) (train : TrainData)
    (batch_size time num_train : ℕ) (m : M) : M × ℚ :=
  (List.range num_train).foldl (trainBody run optStep train batch_size time) (m, 0)

/-- The validation loop of one epoch: fold `validBody` over `b` in
`range num_valid`, starting from the entering weights and
`valid_batch_loss = 0` (source lines 234-250). -/
def runValidLoop (run : M → Batch → ℕ → ℚ) (valid : TrainData)
    (batch_size time num_valid : ℕ) (m : M) : M × ℚ :=
  (List.range num_valid).foldl (validBody run valid batch_size time) (m, 0)

/-- One epoch (source lines 209-253): training loop, then
`train_batch_loss /= num_train` (a Python `ZeroDivisionError` when
`num_train = 0`), then validation loop, then `valid_batch_loss /= num_valid`
(likewise).  Returns the weights after the epoch and the two recorded mean
losses. -/
def runEpoch (run : M → Batch → ℕ → ℚ) (optStep : M → Batch → ℕ → M)
    (train valid : TrainData) (batch_size time num_train num_valid : ℕ) (m : M) :
    Except String (M × ℚ × ℚ) :=
  let s1 := runTrainLoop run optStep train batch_size time num_train m
  if num_train = 0 then Except.error "ZeroDivisionError"
  else
    let trainAvg := s1.2 / (num_train : ℚ)
    let s2 := runValidLoop run valid batch_size time num_valid s1.1
    if num_valid = 0 then Except.error "ZeroDivisionError"
    else Except.ok (s2.1, trainAvg, s2.2 / (num_valid : ℚ))

/-- The epoch loop `for it in tr` (source lines 205-253), threading the
weights and collecting the per-epoch mean losses; an exception in any epoch
propagates out. -/
def trainEpochs (run : M → Batch → ℕ → ℚ) (optStep : M → Batch → ℕ → M)
    (train valid : TrainData) (batch_size time num_train num_valid : ℕ) :
    ℕ → M → Except String (M × List ℚ × List ℚ)
  | 0, m => Except.ok (m, [], [])
  | n + 1, m =>
    match runEpoch run optStep train valid batch_size time num_train num_valid m with
    | Except.error e => Except.error e
    | Except.ok r =>
      match trainEpochs run optStep train valid batch_size time num_train num_valid n r.1 with
      | Except.error e => Except.error e
      | Except.ok rest => Except.ok (rest.1, r.2.1 :: rest.2.1, r.2.2 :: rest.2.2)

/-- `train_validate` (source lines 190-255).  `num_train` and `num_valid`
are `int(shape[0]/batch_size)` (source lines 197-198; floor division on
naturals; `batch_size = 0` makes the Python division itself raise
`ZeroDivisionError`), `time = q_output_train.shape[0]` (line 200).  Returns
the per-epoch training- and validation-loss arrays. -/
def train_validate (run : M → Batch → ℕ → ℚ) (optStep : M → Batch → ℕ → M) (model : M)
    (train valid : TrainData) (n_epochs batch_size : ℕ) :
    Except String (List ℚ × List ℚ) :=
  if batch_size = 0 then Except.error "ZeroDivisionError"
  else
    let num_train := train.q_input.length / batch_size
    let num_valid := valid.q_input.length / batch_size
    let time := train.q_output.length
    match trainEpochs run optStep train valid batch_size time num_train num_valid n_epochs model with
    | Except.error e => Except.error e
    | Except.ok r => Except.ok (r.2.1, r.2.2)

/-!  A concrete separable instance used for witnesses and counterexamples:
one-dimensional halves, `dt = 1`, kinetic field `K(v) = v₀` with constant
gradient `[1]`, potential field `V ≡ 0` whose (abstract) gradient is `[1]`,
so one step moves the state: `q_half = q + 1/2`, `p_next = p - 1`,
`q_next = q + 1`. -/
def exModel : adaptable_sympRNN :=
  { input_size := 2, num_hidden := 1, num_neurons := [4], n_params := 0,
    dt := 1, separable := true,
    Knet := fun v => v.headI, Knet_grad := fun _ => [1],
    Vnet := fun _ => 0, Vnet_grad := fun _ => [1],
    HNNnet := fun v => v.headI, HNNnet_grad := fun _ => [1, 1] }

example : exModel.step [0] [0] [] true = (-1, [1], [-1]) := by
  norm_num [exModel, adaptable_sympRNN.step, adaptable_sympRNN.K_net, adaptable_sympRNN.V_net,
    adaptable_partial_HNN.forward, addVec, scaleVec, negVec]

example : exModel.forward [0] [0] [] 1 true = ([-1], [[1]], [[-1]]) := by
  norm_num [exModel, adaptable_sympRNN.forward, stepOf, adaptable_sympRNN.step,
    adaptable_sympRNN.K_net, adaptable_sympRNN.V_net, adaptable_partial_HNN.forward,
    addVec, scaleVec, negVec]

/-- Claim C1: one separable integrator step computes its update in three
substeps, in this order: `q_half = q + dt/2 * qdot` with `qdot = dK/dp` at
the incoming `p`; `p_next = p + dt * pdot` with `pdot = -dV/dq` at
`(q_half, params)`; `q_next = q_half + dt/2 * qdot_t` with `qdot_t = dK/dp`
at `p_next`; and the step returns this `(q_next, p_next)`. -/
theorem step_three_substeps (m : adaptable_sympRNN) (q p params : Vec) (training : Bool) :
    (m.step q p params training).2 =
      (let qdot := m.Knet_grad p
       let q_half := addVec q (scaleVec (m.dt / 2) qdot)
       let pdot := negVec ((m.Vnet_grad (q_half ++ params)).take q_half.length)
       let p_next := addVec p (scaleVec m.dt pdot)
       let qdot_t := m.Knet_grad p_next
       let q_next := addVec q_half (scaleVec (m.dt / 2) qdot_t)
       (q_next, p_next)) := by
  cases training <;> rfl

/-- Claim C2 counterexample: at the concrete model `exModel` the energy
returned by `step` differs from `K(p) + V(q_next, params)` (the kinetic
evaluation at the incoming momentum plus the potential at the final
position).  The source overwrites `K` at its third estimator call, so the
returned energy uses `K(p_next)`, and here `K(p_next) = -1 ≠ 0 = K(p)`. -/
theorem step_energy_claim_fails_at_exModel :
    (exModel.step [0] [0] [] true).1 ≠
      (exModel.K_net.forward [0] (some []) true).1 +
      (exModel.V_net.forward (exModel.step [0] [0] [] true).2.1 (some []) true).1 := by
  norm_num [exModel, adaptable_sympRNN.step, adaptable_sympRNN.K_net, adaptable_sympRNN.V_net,
    adaptable_partial_HNN.forward, addVec, scaleVec, negVec]

/-- Claim C2 as amended: the energy returned by one separable integrator
step is `K(p_next) + V(q_next, params)` — both the kinetic and the
potential terms are evaluated at the state leaving the step (the variables
`K` and `V` of the first two estimator calls are shadowed by the third and
fourth calls before `K+V` is returned). -/
theorem step_energy_at_outgoing_state (m : adaptable_sympRNN) (q p params : Vec)
    (training : Bool) :
    (m.step q p params training).1 =
      (m.K_net.forward (m.step q p params training).2.2 (some params) training).1 +
      (m.V_net.forward (m.step q p params training).2.1 (some params) training).1 := by
  cases training <;> rfl

/-- Claim C8: in kinetic mode (`potential = false`) the separable
estimator's output — scalar `K` and gradient `dK/dp` — depends only on the
momentum input; any two values of the `params` argument (including `none`)
give identical outputs. -/
theorem kinetic_forward_ignores_params (nn : adaptable_partial_HNN)
    (h : nn.potential = false) (p : Vec) (params1 params2 : Option Vec) (training : Bool) :
    nn.forward p params1 training = nn.forward p params2 training := by
  simp [adaptable_partial_HNN.forward, h]

/-- Witness for C8 at the concrete kinetic net of `exModel`, comparing the
absent parameter (`none`, as `call_K` passes) with a present one. -/
theorem kinetic_forward_ignores_params_witness :
    exModel.K_net.potential = false ∧
      exModel.K_net.forward [2] none false = exModel.K_net.forward [2] (some [5]) false :=
  ⟨rfl, kinetic_forward_ignores_params exModel.K_net rfl [2] none (some [5]) false⟩

/-- Claim C9: a rollout with horizon `T = 0` succeeds, performs no
integrator step (the result is `([], [], [])` for every model, whatever its
estimators would compute), and returns an energy trace and trajectories
with zero time entries. -/
theorem forward_zero_horizon (m : adaptable_sympRNN) (q0 p0 params : Vec) (training : Bool) :
    m.forward q0 p0 params 0 training = ([], [], []) := rfl

/-- Claim C10: the non-separable integrator step `step2` returns as its
energy the full estimator's evaluation at the incoming state `(q, p)` —
the `H` of its first invocation, before any substep — which is the learned
field at `cat (q, p, params)`. -/
theorem step2_energy_at_incoming_state (m : adaptable_sympRNN) (q p params : Vec)
    (training : Bool) :
    (m.step2 q p params training).1 = (m.HNN.forward q p params training).1 ∧
    (m.HNN.forward q p params training).1 = m.HNNnet (q ++ p ++ params) := by
  refine ⟨?_, rfl⟩
  cases training <;> rfl

/-- Unfolding of one iteration of the rollout loop: with horizon `n + 1`,
each returned list is the result of one cell invocation at the initial
state, consed onto the rollout of horizon `n` from the stepped state. -/
theorem forward_succ (m : adaptable_sympRNN) (q0 p0 params : Vec) (n : ℕ) (training : Bool) :
    m.forward q0 p0 params (n + 1) training =
      ((stepOf m q0 p0 params training).1 ::
        (m.forward (stepOf m q0 p0 params training).2.1
          (stepOf m q0 p0 params training).2.2 params n training).1,
       (stepOf m q0 p0 params training).2.1 ::
        (m.forward (stepOf m q0 p0 params training).2.1
          (stepOf m q0 p0 params training).2.2 params n training).2.1,
       (stepOf m q0 p0 params training).2.2 ::
        (m.forward (stepOf m q0 p0 params training).2.1
          (stepOf m q0 p0 params training).2.2 params n training).2.2) := rfl

/-- The returned position trajectory has exactly `T` time entries. -/
theorem forward_q_length (m : adaptable_sympRNN) (params : Vec) (training : Bool) :
    ∀ (T : ℕ) (q0 p0 : Vec), (m.forward q0 p0 params T training).2.1.length = T := by
  intro T
  induction T with
  | zero => intro q0 p0; rfl
  | succ n ih =>
    intro q0 p0
    rw [forward_succ]
    simpa using ih _ _

/-- The returned momentum trajectory has exactly `T` time entries. -/
theorem forward_p_length (m : adaptable_sympRNN) (params : Vec) (training : Bool) :
    ∀ (T : ℕ) (q0 p0 : Vec), (m.forward q0 p0 params T training).2.2.length = T := by
  intro T
  induction T with
  | zero => intro q0 p0; rfl
  | succ n ih =>
    intro q0 p0
    rw [forward_succ]
    simpa using ih _ _

/-- The returned energy trace has exactly `T` time entries. -/
theorem forward_H_length (m : adaptable_sympRNN) (params : Vec) (training : Bool) :
    ∀ (T : ℕ) (q0 p0 : Vec), (m.forward q0 p0 params T training).1.length = T := by
  intro T
  induction T with
  | zero => intro q0 p0; rfl
  | succ n ih =>
    intro q0 p0
    rw [forward_succ]
    simpa using ih _ _

/-- Claim C3 counterexample: at `exModel` and horizon `1`, entry `0` of the
position trajectory returned by the rollout is `[1]`, not the supplied
initial position `[0]` — the source returns `q[1:]`, dropping the slot that
holds the initial condition, so `trajectory[0]` is not the initial state. -/
theorem trajectory_head_not_initial_at_exModel :
    (exModel.forward [0] [0] [] 1 true).2.1.head? ≠ some [0] := by
  norm_num [exModel, adaptable_sympRNN.forward, stepOf, adaptable_sympRNN.step,
    adaptable_sympRNN.K_net, adaptable_sympRNN.V_net, adaptable_partial_HNN.forward,
    addVec, scaleVec, negVec]

/-- Claim C3 as amended: the trajectory returned by the rollout starts at
the first predicted state — entry `0` is one integrator step applied to the
supplied initial condition, the initial condition itself being dropped with
the `q[1:], p[1:]` slices — and every later entry is produced
deterministically from its predecessor and the shared parameter vector by
the same cell. -/
theorem forward_recurrence (m : adaptable_sympRNN) (params : Vec) (training : Bool) :
    ∀ (T : ℕ) (q0 p0 : Vec), 1 ≤ T →
      ((m.forward q0 p0 params T training).2.1.head? =
          some (stepOf m q0 p0 params training).2.1 ∧
       (m.forward q0 p0 params T training).2.2.head? =
          some (stepOf m q0 p0 params training).2.2) ∧
      ∀ t qt pt, t + 1 < T →
        (m.forward q0 p0 params T training).2.1.get? t = some qt →
        (m.forward q0 p0 params T training).2.2.get? t = some pt →
        (m.forward q0 p0 params T training).2.1.get? (t + 1) =
            some (stepOf m qt pt params training).2.1 ∧
        (m.forward q0 p0 params T training).2.2.get? (t + 1) =
            some (stepOf m qt pt params training).2.2 := by
  intro T
  induction T with
  | zero => intro q0 p0 h; exact absurd h (by omega)
  | succ n ih =>
    intro q0 p0 _
    constructor
    · rw [forward_succ]
      exact ⟨rfl, rfl⟩
    · intro t qt pt ht hq hp
      rw [forward_succ] at hq hp
      cases t with
      | zero =>
        have hn : 1 ≤ n := by omega
        have hq0 : (stepOf m q0 p0 params training).2.1 = qt := by
          simpa using hq
        have hp0 : (stepOf m q0 p0 params training).2.2 = pt := by
          simpa using hp
        have hd := (ih (stepOf m q0 p0 params training).2.1
          (stepOf m q0 p0 params training).2.2 hn).1
        rw [forward_succ]
        simp only [List.get?_cons_succ, List.get?_zero]
        rw [← hq0, ← hp0]
        exact hd
      | succ u =>
        have hn : 1 ≤ n := by omega
        have hrec := (ih (stepOf m q0 p0 params training).2.1
          (stepOf m q0 p0 params training).2.2 hn).2 u qt pt (by omega)
          (by simpa using hq) (by simpa using hp)
        rw [forward_succ]
        simpa using hrec

/-- Witness for the amended C3 at `exModel`, horizon `2`: entry `0` is the
step applied to the initial condition, and entry `1` is the step applied to
entry `0` (which is `([1], [-1])` there). -/
theorem forward_recurrence_witness :
    (1 ≤ 2) ∧
    (exModel.forward [0] [0] [] 2 true).2.1.head? =
      some (stepOf exModel [0] [0] [] true).2.1 ∧
    (exModel.forward [0] [0] [] 2 true).2.1.get? 1 =
      some (stepOf exModel [1] [-1] [] true).2.1 := by
  have hq : (exModel.forward [0] [0] [] 2 true).2.1.get? 0 = some [1] := by
    norm_num [exModel, adaptable_sympRNN.forward, stepOf, adaptable_sympRNN.step,
      adaptable_sympRNN.K_net, adaptable_sympRNN.V_net, adaptable_partial_HNN.forward,
      addVec, scaleVec, negVec]
  have hp : (exModel.forward [0] [0] [] 2 true).2.2.get? 0 = some [-1] := by
    norm_num [exModel, adaptable_sympRNN.forward, stepOf, adaptable_sympRNN.step,
      adaptable_sympRNN.K_net, adaptable_sympRNN.V_net, adaptable_partial_HNN.forward,
      addVec, scaleVec, negVec]
  exact ⟨by decide,
    (forward_recurrence exModel [] true 2 [0] [0] (by decide)).1.1,
    ((forward_recurrence exModel [] true 2 [0] [0] (by decide)).2 0 [1] [-1]
      (by decide) hq hp).1⟩

/-- Claim C4: a rollout with horizon `T ≥ 1` returns position and momentum
trajectories with exactly `T` time entries each, and entry `0` of each is
the result of applying one integrator step to the initial condition (not
the initial condition itself, which the `q[1:], p[1:]` slices drop). -/
theorem forward_trajectory_shape (m : adaptable_sympRNN) (q0 p0 params : Vec) (T : ℕ)
    (training : Bool) (hT : 1 ≤ T) :
    (m.forward q0 p0 params T training).2.1.length = T ∧
    (m.forward q0 p0 params T training).2.2.length = T ∧
    (m.forward q0 p0 params T training).2.1.head? =
      some (stepOf m q0 p0 params training).2.1 ∧
    (m.forward q0 p0 params T training).2.2.head? =
      some (stepOf m q0 p0 params training).2.2 := by
  obtain ⟨n, rfl⟩ : ∃ n, T = n + 1 := ⟨T - 1, (Nat.succ_pred_eq_of_pos hT).symm⟩
  refine ⟨forward_q_length m params training (n + 1) q0 p0,
    forward_p_length m params training (n + 1) q0 p0, ?_, ?_⟩ <;>
    rw [forward_succ] <;> rfl

/-- Witness for C4 at `exModel`, horizon `1`. -/
theorem forward_trajectory_shape_witness :
    (1 ≤ 1) ∧
    (exModel.forward [0] [0] [] 1 true).2.1.length = 1 ∧
    (exModel.forward [0] [0] [] 1 true).2.1.head? =
      some (stepOf exModel [0] [0] [] true).2.1 :=
  ⟨Nat.le_refl 1,
    (forward_trajectory_shape exModel [0] [0] [] 1 true (Nat.le_refl 1)).1,
    (forward_trajectory_shape exModel [0] [0] [] 1 true (Nat.le_refl 1)).2.2.1⟩

/-- Entry `i` of the slice `x[b : b+k]` is entry `b + i` of `x`. -/
theorem batchWindow_get (l : List α) (b k i : ℕ) (h : i < k) :
    (batchWindow l b k).get? i = l.get? (b + i) := by
  unfold batchWindow
  rw [List.get?_take h, List.get?_drop]

/-- Claim C5: in each loop of `train_validate`, the batch at loop counter
`b` consists of rows `b` through `b + batch_size - 1` of the inputs — the
window advances by `1` per iteration, not by `batch_size` — so consecutive
batches overlap whenever `batch_size > 1` (row `b + 1` is entry `1` of
batch `b` and entry `0` of batch `b + 1`).  `train_validate` feeds
`sliceBatch train b batch_size` in the training loop and
`sliceBatch valid b batch_size` in the validation loop, so the statement,
quantified over the data record, covers both. -/
theorem batch_slicing_by_loop_counter (d : TrainData) (b batch_size i : ℕ)
    (hik : i < batch_size) :
    (sliceBatch d b batch_size).q_in.get? i = d.q_input.get? (b + i) ∧
    (sliceBatch d b batch_size).p_in.get? i = d.p_input.get? (b + i) ∧
    (sliceBatch d b batch_size).params.get? i = d.params.get? (b + i) ∧
    (1 < batch_size →
      (sliceBatch d b batch_size).q_in.get? 1 =
        (sliceBatch d (b + 1) batch_size).q_in.get? 0) := by
  refine ⟨batchWindow_get _ _ _ _ hik, batchWindow_get _ _ _ _ hik,
    batchWindow_get _ _ _ _ hik, fun hk => ?_⟩
  show (batchWindow d.q_input b batch_size).get? 1 =
    (batchWindow d.q_input (b + 1) batch_size).get? 0
  rw [batchWindow_get _ _ _ _ hk, batchWindow_get _ _ _ _ (by omega : 0 < batch_size)]

/-- Concrete data used in witnesses: three rows. -/
def exData : TrainData :=
  { q_input := [[0], [1], [2]], p_input := [[3], [4], [5]],
    params := [[6], [7], [8]], q_output := [[[0], [1], [2]]],
    p_output := [[[3], [4], [5]]] }

/-- Witness for C5 at `exData`, `b = 0`, `batch_size = 2`, `i = 1`: batch
`0` holds rows `0` and `1`, and row `1` reappears as entry `0` of batch
`1`. -/
theorem batch_slicing_by_loop_counter_witness :
    (1 < 2) ∧
    (sliceBatch exData 0 2).q_in.get? 1 = exData.q_input.get? 1 ∧
    (sliceBatch exData 0 2).q_in.get? 1 = (sliceBatch exData 1 2).q_in.get? 0 :=
  ⟨by decide, (batch_slicing_by_loop_counter exData 0 2 1 (by decide)).1,
    (batch_slicing_by_loop_counter exData 0 2 1 (by decide)).2.2.2 (by decide)⟩

/-- A trivial weight state and model hooks for concrete instantiations of
`train_validate`. -/
def exRun : Unit → Batch → ℕ → ℚ := fun _ _ _ => 0

/-- A trivial optimizer step for concrete instantiations. -/
def exOptStep : Unit → Batch → ℕ → Unit := fun _ _ _ => ()

/-- Data with no rows at all: any positive `batch_size` gives zero
batches. -/
def emptyData : TrainData :=
  { q_input := [], p_input := [], params := [], q_output := [], p_output := [] }

/-- Claim C6 counterexample: with no training rows and `batch_size = 1`
(so `num_train = 0`), `train_validate` does not silently complete the
epoch with a meaningless average — the Python division
`train_batch_loss /= num_train` raises `ZeroDivisionError`, modelled here
as the `Except.error` result. -/
theorem train_validate_zero_batches_raises_at_empty :
    train_validate exRun exOptStep () emptyData emptyData 1 1 =
      Except.error "ZeroDivisionError" := rfl

/-- Claim C6 as amended: when `num_train = floor(N_train/batch_size) = 0`
or `num_valid = floor(N_valid/batch_size) = 0`, `train_validate` raises
`ZeroDivisionError` at the corresponding `/=` averaging line of the first
epoch (it neither completes the epoch nor records any average). -/
theorem train_validate_zero_batches_errors (M : Type) (run : M → Batch → ℕ → ℚ)
    (optStep : M → Batch → ℕ → M) (model : M) (train valid : TrainData)
    (n_epochs batch_size : ℕ) (hE : 1 ≤ n_epochs)
    (h : train.q_input.length / batch_size = 0 ∨ valid.q_input.length / batch_size = 0) :
    train_validate run optStep model train valid n_epochs batch_size =
      Except.error "ZeroDivisionError" := by
  obtain ⟨n, rfl⟩ : ∃ n, n_epochs = n + 1 := ⟨n_epochs - 1, (Nat.succ_pred_eq_of_pos hE).symm⟩
  by_cases hbs : batch_size = 0
  · simp [train_validate, hbs]
  · have hep : runEpoch run optStep train valid batch_size train.q_output.length
        (train.q_input.length / batch_size) (valid.q_input.length / batch_size) model =
        Except.error "ZeroDivisionError" := by
      rcases h with h | h
      · simp [runEpoch, h]
      · by_cases h0 : train.q_input.length / batch_size = 0
        · simp [runEpoch, h0]
        · simp [runEpoch, h0, h]
    simp [train_validate, hbs, trainEpochs, hep]

/-- Witness for the amended C6: two epochs requested, three rows per batch
but no rows of data, hence `num_train = 0` and an error result. -/
theorem train_validate_zero_batches_errors_witness :
    (1 ≤ 2) ∧ (emptyData.q_input.length / 3 = 0) ∧
    train_validate exRun exOptStep () emptyData emptyData 2 3 =
      Except.error "ZeroDivisionError" :=
  ⟨by decide, by decide,
    train_validate_zero_batches_errors Unit exRun exOptStep () emptyData emptyData 2 3
      (by decide) (Or.inl (by decide))⟩

/-- Claim C7: the validation loop never mutates the estimator weights.
Per batch, the body of the validation loop returns the weights it was
given unchanged (no optimizer step is applied; `optimizer.zero_grad()`
touches gradient buffers only); consequently the weights leaving the whole
validation loop equal the weights entering it; and in the training loop
the weights change only through the optimizer step applied to the current
weights and batch. -/
theorem validation_never_mutates_weights (M : Type) (run : M → Batch → ℕ → ℚ)
    (valid : TrainData) (batch_size time : ℕ) :
    (∀ (st : M × ℚ) (b : ℕ), (validBody run valid batch_size time st b).1 = st.1) ∧
    (∀ (num_valid : ℕ) (m : M), (runValidLoop run valid batch_size time num_valid m).1 = m) ∧
    (∀ (optStep : M → Batch → ℕ → M) (train : TrainData) (st : M × ℚ) (b : ℕ),
      (trainBody run optStep train batch_size time st b).1 =
        optStep st.1 (sliceBatch train b batch_size) time) := by
  have key : ∀ (l : List ℕ) (st : M × ℚ),
      (l.foldl (validBody run valid batch_size time) st).1 = st.1 := by
    intro l
    induction l with
    | nil => exact fun st => rfl
    | cons a l ih => exact fun st => ih _
  exact ⟨fun st b => rfl, fun num_valid m => key (List.range num_valid) (m, 0),
    fun optStep train st b => rfl⟩
